import Mathlib

/-!
Shallow embedding of the trivia backend (`backend/flaskr/__init__.py`):
the two-table data model, the pagination helper, and the request handlers,
together with theorems settling the specification's claims about them.

Conventions of the embedding:
* the question store is a `List Question` in the storage layer's default
  order (insertion order); `Question.query.all()` is the list itself,
  `order_by(Question.id)` is a merge sort on ids, `filter` is `List.filter`,
  `first()` is `List.head?`;
* a handler is a pure function from its inputs and the store to
  `Except RError <response>`; `Except.error` carries the HTTP error class
  produced either by an explicit `abort` or by an uncaught Python exception
  (which the app's global 500 handler turns into `InternalError`);
* Python's `list[start:end]` slicing (with its negative-index semantics) is
  embedded as `pySlice`.
-/

set_option maxHeartbeats 1000000

/-- Modelled from the spec: the `Question` model lives in `models.py`, which is
not among the sources; per spec §3 a question row has an integer `id`, text
`question` and `answer`, an integer `category` reference and an integer
`difficulty`. -/
structure Question where
  id : Nat
  question : String
  answer : String
  category : Int
  difficulty : Int
deriving DecidableEq, Repr

/-- Modelled from the spec: the `Category` model lives in `models.py`; per spec
§3 a category row has an integer `id` and a text `type` label. -/
structure Category where
  id : Int
  type : String
deriving DecidableEq, Repr

/-- Modelled from the spec: `Question.format` lives in the missing `models.py`;
per spec §3/§4 a formatted question carries exactly the row's `id`,
`question`, `answer`, `category` and `difficulty` fields, so formatting is
embedded as the identity on rows. -/
def Question.format (q : Question) : Question := q

/-- How a request ends when the handler does not return a success body:
`badRequest` and `notFound` are raised via `abort(400)` / `abort(404)` and
rendered by the registered error handlers; `internalError` stands for an
uncaught runtime exception reaching the app's global 500 handler. -/
inductive RError where
  | badRequest
  | notFound
  | internalError
deriving DecidableEq, Repr

/-- Python's `xs[start:stop]` list slicing: a negative bound counts from the
end of the list, and the resolved bounds are clamped to `[0, len(xs)]`. -/
def pySlice {α : Type} (start stop : Int) (xs : List α) : List α :=
  let n : Int := xs.length
  let s : Int := if start < 0 then max (n + start) 0 else min start n
  let e : Int := if stop < 0 then max (n + stop) 0 else min stop n
  (xs.take e.toNat).drop s.toNat

/-- The fixed page size (`QUESTIONS_PER_PAGE = 10`). -/
def QUESTIONS_PER_PAGE : Int := 10

/-- The pagination helper `paginate_quetions` (sic): `page` is the value of the
`page` query parameter (default 1), the items are the already formatted
questions, and the result is `questions[start:end]` with
`start = (page - 1) * QUESTIONS_PER_PAGE` and `end = start + QUESTIONS_PER_PAGE`. -/
def paginate_quetions {α : Type} (page : Int) (questions : List α) : List α :=
  let start := (page - 1) * QUESTIONS_PER_PAGE
  let stop := start + QUESTIONS_PER_PAGE
  pySlice start stop questions

/-- The page slice as the specification words it (§4.1): the elements of the
input whose offset `i` satisfies `(p - 1) * 10 ≤ i < p * 10`. -/
def specPageSlice {α : Type} (p : Int) (xs : List α) : List α :=
  (List.range xs.length).filterMap fun (i : Nat) =>
    if (p - 1) * 10 ≤ (i : Int) ∧ (i : Int) < p * 10 then xs[i]? else none

theorem range_filterMap_slice {α : Type} (xs : List α) (s e : Nat) :
    ((List.range xs.length).filterMap fun i =>
        if s ≤ i ∧ i < e then xs[i]? else none) = (xs.take e).drop s := by
  induction xs generalizing s e with
  | nil => simp
  | cons x t ih =>
    cases e with
    | zero =>
      rw [List.take_zero, List.drop_nil, List.filterMap_eq_nil_iff]
      intro i _
      rw [if_neg]
      omega
    | succ e' =>
      rw [List.length_cons, List.range_succ_eq_map, List.filterMap_cons,
        List.filterMap_map]
      have htail : (List.filterMap
          ((fun i => if s ≤ i ∧ i < e' + 1 then (x :: t)[i]? else none) ∘ Nat.succ)
          (List.range t.length)) = (t.take e').drop (s - 1) := by
        rw [← ih (s - 1) e']
        apply List.filterMap_congr
        intro i _
        simp only [Function.comp_apply, Nat.succ_eq_add_one]
        have hcond : (s ≤ i + 1 ∧ i + 1 < e' + 1) ↔ (s - 1 ≤ i ∧ i < e') := by omega
        rw [if_congr hcond rfl rfl]
        by_cases h : s - 1 ≤ i ∧ i < e'
        · rw [if_pos h, if_pos h, List.getElem?_cons_succ]
        · rw [if_neg h, if_neg h]
      rw [htail]
      cases s with
      | zero =>
        rw [if_pos (by omega : 0 ≤ 0 ∧ 0 < e' + 1), List.getElem?_cons_zero]
        simp [List.take_succ_cons]
      | succ s' =>
        rw [if_neg (by omega)]
        simp only [List.take_succ_cons, List.drop_succ_cons, Nat.add_sub_cancel]

theorem specPageSlice_eq_take_drop {α : Type} (p : Int) (xs : List α) :
    specPageSlice p xs = (xs.take (p * 10).toNat).drop ((p - 1) * 10).toNat := by
  rw [specPageSlice, ← range_filterMap_slice xs ((p - 1) * 10).toNat (p * 10).toNat]
  apply List.filterMap_congr
  intro i _
  have hcond : ((p - 1) * 10 ≤ (i : Int) ∧ (i : Int) < p * 10) ↔
      (((p - 1) * 10).toNat ≤ i ∧ i < (p * 10).toNat) := by omega
  rw [if_congr hcond rfl rfl]

theorem pySlice_of_nonneg {α : Type} (a b : Int) (xs : List α)
    (ha : 0 ≤ a) (hb : 0 ≤ b) :
    pySlice a b xs = (xs.take b.toNat).drop a.toNat := by
  rw [pySlice]
  simp only [if_neg (by omega : ¬ a < 0), if_neg (by omega : ¬ b < 0)]
  have htake : xs.take (min b (xs.length : Int)).toNat = xs.take b.toNat := by
    by_cases h : b.toNat ≤ xs.length
    · congr 1
      omega
    · rw [(by omega : (min b (xs.length : Int)).toNat = xs.length)]
      rw [List.take_length, List.take_of_length_le (by omega)]
  rw [htake]
  by_cases h : a.toNat ≤ xs.length
  · congr 1
    omega
  · rw [(by omega : (min a (xs.length : Int)).toNat = xs.length)]
    rw [List.drop_eq_nil_of_le (by rw [List.length_take]; omega),
      List.drop_eq_nil_of_le (by rw [List.length_take]; omega)]

theorem pySlice_stop_zero {α : Type} (a : Int) (xs : List α) :
    pySlice a 0 xs = [] := by
  simp only [pySlice]
  rw [if_neg (by omega : ¬ (0 : Int) < 0)]
  rw [(by omega : (min (0 : Int) (xs.length : Int)).toNat = 0)]
  rw [List.take_zero, List.drop_nil]

/-- C1 (amended): for every page number `p ≥ 0` the helper returns exactly the
sub-sequence of the input covering offsets `(p-1)*10` through `p*10`
(exclusive), with a fixed page size of 10, and a page whose start offset is at
or beyond the end of the input yields the empty sequence rather than an
error.  (For negative `p` the Python negative-index slice semantics can
instead return a nonempty slice taken near the front of the list.) -/
theorem paginate_quetions_spec {α : Type} (p : Int) (xs : List α) (hp : 0 ≤ p) :
    paginate_quetions p xs = specPageSlice p xs ∧
    ((xs.length : Int) ≤ (p - 1) * 10 → paginate_quetions p xs = []) := by
  have hstep : paginate_quetions p xs =
      pySlice ((p - 1) * 10) ((p - 1) * 10 + 10) xs := rfl
  have hmain : paginate_quetions p xs = specPageSlice p xs := by
    rw [hstep, specPageSlice_eq_take_drop]
    rcases (by omega : p = 0 ∨ 1 ≤ p) with h0 | h1
    · subst h0
      rw [(by norm_num : ((0 : Int) - 1) * 10 = -10), (by norm_num : (-10 : Int) + 10 = 0)]
      rw [pySlice_stop_zero]
      rw [(by decide : ((0 : Int) * 10).toNat = 0), List.take_zero, List.drop_nil]
    · rw [pySlice_of_nonneg _ _ _ (by omega) (by omega)]
      rw [(by omega : ((p - 1) * 10 + 10).toNat = (p * 10).toNat)]
  refine ⟨hmain, fun hbeyond => ?_⟩
  rw [hmain, specPageSlice_eq_take_drop]
  apply List.drop_eq_nil_of_le
  rw [List.length_take]
  omega

/-- C1 witness: page 2 of a 25-element list is the slice at offsets 10–19, and
page 9 (beyond the last page) is empty. -/
theorem paginate_quetions_spec_witness :
    paginate_quetions 2 (List.range 25) = specPageSlice 2 (List.range 25) ∧
    paginate_quetions 9 (List.range 25) = [] :=
  ⟨(paginate_quetions_spec 2 (List.range 25) (by decide)).1,
   (paginate_quetions_spec 9 (List.range 25) (by decide)).2 (by decide)⟩

/-- C1 counterexample: at page `-1` on an 11-element list the helper returns
`[0]` — Python resolves the slice `[-20:-10]` against the end of the list —
rather than the (empty) sub-sequence covering offsets `-20` through `-10`. -/
theorem paginate_quetions_cex :
    paginate_quetions (-1) (List.range 11) ≠ specPageSlice (-1) (List.range 11) ∧
    paginate_quetions (-1) (List.range 11) = [0] := by decide

/-- C2 (amended): for a page number `p ≤ 0` the helper returns the empty
sequence exactly when `p = 0` or the input has at most `10 * (-p)` elements;
a negative page on a longer input instead returns a nonempty slice via
Python's negative-index slicing. -/
theorem paginate_quetions_nonpos_page {α : Type} (p : Int) (xs : List α)
    (hp : p ≤ 0) :
    paginate_quetions p xs = [] ↔ (p = 0 ∨ (xs.length : Int) ≤ 10 * (-p)) := by
  have hstep : paginate_quetions p xs =
      pySlice ((p - 1) * 10) ((p - 1) * 10 + 10) xs := rfl
  rcases (by omega : p = 0 ∨ p < 0) with h0 | hneg
  · subst h0
    rw [hstep, (by norm_num : ((0 : Int) - 1) * 10 = -10),
      (by norm_num : (-10 : Int) + 10 = 0), pySlice_stop_zero]
    simp
  · rw [hstep, ← List.length_eq_zero]
    simp only [pySlice]
    rw [List.length_drop, List.length_take]
    rw [if_pos (by omega : (p - 1) * 10 < 0), if_pos (by omega : (p - 1) * 10 + 10 < 0)]
    omega

/-- C2 witness: page `-1` of a 5-element list is empty. -/
theorem paginate_quetions_nonpos_page_witness :
    paginate_quetions (-1) (List.range 5) = [] :=
  (paginate_quetions_nonpos_page (-1) (List.range 5) (by decide)).mpr
    (Or.inr (by decide))

/-- C2 counterexample: page `-1` of a 12-element list is `[0, 1]`, not the
empty sequence, although `-1 ≤ 0`. -/
theorem paginate_quetions_nonpos_cex :
    (-1 : Int) ≤ 0 ∧ paginate_quetions (-1) (List.range 12) ≠ [] ∧
    paginate_quetions (-1) (List.range 12) = [0, 1] := by decide

/-- SQL `LIKE` pattern matching over characters, as the storage layer applies
it to the pattern the search handler builds: `%` matches any (possibly empty)
run of characters, `_` matches exactly one character, any other pattern
character matches itself.  The SQL escape character `\` is not modelled;
every theorem below touching `ilike` restricts the search term to characters
that are neither wildcards nor the escape character, where the two semantics
agree. -/
def likeMatch : List Char → List Char → Bool
  | [], cs => cs.isEmpty
  | p :: ps, cs =>
    if p = '%' then
      likeMatch ps cs ||
        (match cs with
         | [] => false
         | _ :: cs2 => likeMatch (p :: ps) cs2)
    else if p = '_' then
      match cs with
      | [] => false
      | _ :: cs2 => likeMatch ps cs2
    else
      match cs with
      | [] => false
      | c :: cs2 => p == c && likeMatch ps cs2
termination_by ps cs => (cs.length, ps.length)

/-- The `ilike` operator used by the search handler: case-insensitive `LIKE`,
embedded as `LIKE` after lowercasing both the text and the pattern. -/
def ilike (hay pat : String) : Bool :=
  likeMatch (pat.toList.map Char.toLower) (hay.toList.map Char.toLower)

/-- The `order_by(Question.id)` query: the store sorted by ascending id. -/
def orderById (store : List Question) : List Question :=
  store.mergeSort fun a b => a.id ≤ b.id

/-- Success body of `GET /api/questions`. -/
structure AllQuestionsResponse where
  questions : List Question
  categories : List (Int × String)
  total_questions : Nat
  current_category : Option Int
deriving DecidableEq, Repr

/-- Success body of `POST /api/questions/search`. -/
structure SearchResponse where
  questions : List Question
  total_questions : Nat
  current_category : Option Int
deriving DecidableEq, Repr

/-- Success body of `GET /api/categories/&lt;id&gt;/questions`. -/
structure CategoryQuestionsResponse where
  questions : List Question
  total_questions : Nat
  current_category : Int
deriving DecidableEq, Repr

/-- JSON body of `POST /api/questions`; `none` is an absent key or JSON
`null` (`body.get(key, None)`). -/
structure CreateBody where
  question : Option String
  answer : Option String
  category : Option Int
  difficulty : Option Int
deriving DecidableEq, Repr

/-- Python truthiness of an optional string: `None` and `""` are falsy. -/
def truthyOptStr : Option String → Bool
  | none => false
  | some s => !(s == "")

/-- Python truthiness of an optional integer: `None` and `0` are falsy. -/
def truthyOptInt : Option Int → Bool
  | none => false
  | some n => !(n == 0)

/-- Handler `get_questions` (`GET /api/questions`): fetch all questions
ordered by id, paginate the formatted rows, fetch the category id-to-type
mapping, 404 when the page slice is empty (`len(current_questions) == 0`). -/
def get_questions (page : Int) (store : List Question) (cats : List Category) :
    Except RError AllQuestionsResponse :=
  let selection := orderById store
  let current_questions := paginate_quetions page (selection.map Question.format)
  let categories := cats.map fun c => (c.id, c.type)
  if current_questions.length = 0 then Except.error RError.notFound
  else Except.ok { questions := current_questions, categories := categories,
                   total_questions := selection.length, current_category := none }

/-- Handler `delete_question` (`DELETE /api/questions/&lt;id&gt;`):
`one_or_none()` on the rows with the given id — no row aborts 404, more than
one row raises `MultipleResultsFound` (uncaught, so a 500); the single match
is deleted from the store. -/
def delete_question (question_id : Nat) (store : List Question) :
    Except RError (List Question × String) :=
  match store.filter fun q => q.id == question_id with
  | [] => Except.error RError.notFound
  | [_] => Except.ok (store.filter fun q => !(q.id == question_id),
                      "Question successfully deleted")
  | _ => Except.error RError.internalError

/-- Handler `create_question` (`POST /api/questions`): build the row from the
body, abort 400 unless all four fields are truthy, else insert the row (the
store assigns `next_id`) and answer 201 with a confirmation message. -/
def create_question (body : CreateBody) (next_id : Nat) (store : List Question) :
    Except RError (List Question × Nat × String) :=
  let new_question : Question :=
    { id := next_id,
      question := body.question.getD "",
      answer := body.answer.getD "",
      category := body.category.getD 0,
      difficulty := body.difficulty.getD 0 }
  if truthyOptStr body.question && truthyOptStr body.answer &&
      truthyOptInt body.category && truthyOptInt body.difficulty then
    Except.ok (store ++ [new_question], 201, "Question successfully added")
  else
    Except.error RError.badRequest

/-- Handler `search_questions` (`POST /api/questions/search`): with a missing
or null `searchTerm` the handler evaluates `"%" + None + "%"`, a `TypeError`
that reaches the global 500 handler; otherwise it filters the store through
`ilike`, paginates, and 404s on an empty page slice. -/
def search_questions (page : Int) (searchTerm : Option String)
    (store : List Question) : Except RError SearchResponse :=
  match searchTerm with
  | none => Except.error RError.internalError
  | some t =>
    let all_questions := store.filter fun q => ilike q.question ("%" ++ t ++ "%")
    let current_questions := paginate_quetions page (all_questions.map Question.format)
    if current_questions.isEmpty then Except.error RError.notFound
    else Except.ok { questions := current_questions,
                     total_questions := all_questions.length,
                     current_category := none }

/-- Handler `retrieve_questions_by_category`
(`GET /api/categories/&lt;id&gt;/questions`): the category row is fetched but
never used (no existence check); the questions with the given category value
are paginated, 404 on an empty page slice. -/
def retrieve_questions_by_category (page : Int) (category_id : Int)
    (store : List Question) (cats : List Category) :
    Except RError CategoryQuestionsResponse :=
  let _category := cats.find? fun c => c.id == category_id
  let selection := store.filter fun q => q.category == category_id
  let current_questions := paginate_quetions page (selection.map Question.format)
  if current_questions.isEmpty then Except.error RError.notFound
  else Except.ok { questions := current_questions,
                   total_questions := selection.length,
                   current_category := category_id }

/-- The quiz handler's filtered query: all questions whose id is not in
`previous_questions`, further restricted to the category when its id is
truthy (non-zero). -/
def quizCandidates (previous_questions : List Nat) (quiz_category_id : Int)
    (store : List Question) : List Question :=
  let question := store.filter fun q => !(previous_questions.contains q.id)
  if quiz_category_id ≠ 0 then
    question.filter fun q => q.category == quiz_category_id
  else question

/-- Handler `get_quizzes` (`POST /api/quizzes`): `first()` of the filtered
query, formatted.  On an empty result `first()` is `None` and
`None.format()` raises an `AttributeError` that reaches the global 500
handler. -/
def get_quizzes (previous_questions : List Nat) (quiz_category_id : Int)
    (store : List Question) : Except RError Question :=
  match (quizCandidates previous_questions quiz_category_id store).head? with
  | none => Except.error RError.internalError
  | some q => Except.ok q.format

theorem map_format (l : List Question) : l.map Question.format = l := by
  induction l with
  | nil => rfl
  | cons x t ih =>
    rw [List.map_cons, ih]
    rfl

theorem mem_of_mem_paginate {α : Type} {x : α} {p : Int} {xs : List α}
    (h : x ∈ paginate_quetions p xs) : x ∈ xs := by
  simp only [paginate_quetions, pySlice] at h
  exact List.mem_of_mem_take (List.mem_of_mem_drop h)

theorem mem_quizCandidates {prev : List Nat} {c : Int} {store : List Question}
    {q : Question} (h : q ∈ quizCandidates prev c store) :
    q ∈ store ∧ ¬ q.id ∈ prev ∧ (c ≠ 0 → q.category = c) := by
  simp only [quizCandidates] at h
  by_cases hc : c ≠ 0
  · rw [if_pos hc] at h
    rcases List.mem_filter.mp h with ⟨h1, h2⟩
    rcases List.mem_filter.mp h1 with ⟨h3, h4⟩
    exact ⟨h3, by simpa using h4, fun _ => by simpa using h2⟩
  · rw [if_neg hc] at h
    rcases List.mem_filter.mp h with ⟨h3, h4⟩
    exact ⟨h3, by simpa using h4, fun hcc => absurd hcc hc⟩

/-- Sample rows mirroring the repository's test fixture. -/
def sampleMath : Question :=
  { id := 3, question := "What is four by four?", answer := "Sixteen",
    category := 7, difficulty := 2 }

def sampleSci : Question :=
  { id := 5, question := "Why is the sky Blue?", answer := "Scattering",
    category := 2, difficulty := 1 }

def sampleStore : List Question := [sampleMath, sampleSci]

def sampleCats : List Category :=
  [{ id := 7, type := "Math" }, { id := 2, type := "Science" }]

/-- C3: any question the quiz handler returns is the head, in the storage
layer's default order, of the candidate set (ids not in `previous_questions`,
restricted to the category when its id is non-zero); hence its id is never in
`previous_questions`, and with a non-zero category id its category matches. -/
theorem get_quizzes_spec (prev : List Nat) (c : Int) (store : List Question)
    (q : Question) (h : get_quizzes prev c store = Except.ok q) :
    (quizCandidates prev c store).head? = some q ∧
    ¬ q.id ∈ prev ∧ (c ≠ 0 → q.category = c) := by
  unfold get_quizzes at h
  have hh : (quizCandidates prev c store).head? = some q := by
    cases hcase : (quizCandidates prev c store).head? with
    | none =>
      rw [hcase] at h
      exact absurd h (by simp)
    | some q0 =>
      rw [hcase] at h
      exact congrArg some (Except.ok.inj h)
  have hq : q ∈ quizCandidates prev c store := by
    cases hcand : quizCandidates prev c store with
    | nil =>
      rw [hcand] at hh
      exact absurd hh (by simp)
    | cons a t =>
      rw [hcand] at hh
      simp only [List.head?_cons, Option.some.injEq] at hh
      rw [← hh]
      exact List.mem_cons_self a t
  rcases mem_quizCandidates hq with ⟨-, h2, h3⟩
  exact ⟨hh, h2, h3⟩

/-- C3 witness: with questions 3 and 5 in store, previous ids `[3]` and
category 2, the handler returns question 5, whose id avoids the exclusion
list and whose category is 2. -/
theorem get_quizzes_spec_witness :
    (quizCandidates [3] 2 sampleStore).head? = some sampleSci ∧
    ¬ sampleSci.id ∈ [3] ∧ ((2 : Int) ≠ 0 → sampleSci.category = 2) :=
  get_quizzes_spec [3] 2 sampleStore sampleSci (by rfl)

/-- C4: when the filtered candidate set is empty the quiz handler ends in the
uncaught-error outcome (the generic 500), not a handled NotFound. -/
theorem get_quizzes_empty (prev : List Nat) (c : Int) (store : List Question)
    (h : quizCandidates prev c store = []) :
    get_quizzes prev c store = Except.error RError.internalError ∧
    get_quizzes prev c store ≠ Except.error RError.notFound := by
  have h1 : get_quizzes prev c store = Except.error RError.internalError := by
    unfold get_quizzes
    rw [h]
    rfl
  refine ⟨h1, ?_⟩
  rw [h1]
  intro hcon
  exact RError.noConfusion (Except.error.inj hcon)

/-- C4 witness: both stored questions already seen, any category: the handler
yields the 500 outcome. -/
theorem get_quizzes_empty_witness :
    get_quizzes [3, 5] 0 sampleStore = Except.error RError.internalError :=
  (get_quizzes_empty [3, 5] 0 sampleStore (by rfl)).1

/-- C10: a search request whose body lacks `searchTerm` (or has it null) ends
in the uncaught `TypeError` outcome — the generic 500 — and not in a
BadRequest. -/
theorem search_questions_none (page : Int) (store : List Question) :
    search_questions page none store = Except.error RError.internalError ∧
    search_questions page none store ≠ Except.error RError.badRequest :=
  ⟨rfl, fun hcon => RError.noConfusion (Except.error.inj hcon)⟩

/-- C5: creating with any absent or falsy field answers BadRequest (no
success value, hence no insertion); with all four fields present and truthy
the handler appends the row carrying exactly those values and answers 201
with the confirmation message. -/
theorem create_question_spec (b : CreateBody) (nid : Nat) (store : List Question) :
    ((b.question = none ∨ b.question = some "" ∨
      b.answer = none ∨ b.answer = some "" ∨
      b.category = none ∨ b.category = some 0 ∨
      b.difficulty = none ∨ b.difficulty = some 0) →
      create_question b nid store = Except.error RError.badRequest) ∧
    (∀ q a c d, b = ⟨some q, some a, some c, some d⟩ →
      q ≠ "" → a ≠ "" → c ≠ 0 → d ≠ 0 →
      create_question b nid store =
        Except.ok (store ++ [⟨nid, q, a, c, d⟩], 201, "Question successfully added")) := by
  constructor
  · intro hfalsy
    have hneg : ¬ (truthyOptStr b.question && truthyOptStr b.answer &&
        truthyOptInt b.category && truthyOptInt b.difficulty) = true := by
      intro htr
      rcases hfalsy with h | h | h | h | h | h | h | h <;>
        simp [truthyOptStr, truthyOptInt, h] at htr
    simp only [create_question]
    rw [if_neg hneg]
  · intro q a c d hb hq ha hc hd
    subst hb
    have hpos : (truthyOptStr (some q) && truthyOptStr (some a) &&
        truthyOptInt (some c) && truthyOptInt (some d)) = true := by
      simp [truthyOptStr, truthyOptInt, hq, ha, hc, hd]
    simp only [create_question]
    rw [if_pos hpos]
    rfl

/-- C5 witness: a body missing `answer` is rejected with BadRequest; a fully
truthy body appends exactly the given row and answers 201. -/
theorem create_question_spec_witness :
    create_question ⟨some "Q", none, some 7, some 1⟩ 9 [] =
      Except.error RError.badRequest ∧
    create_question ⟨some "Q", some "A", some 7, some 1⟩ 9 [] =
      Except.ok ([⟨9, "Q", "A", 7, 1⟩], 201, "Question successfully added") :=
  ⟨(create_question_spec ⟨some "Q", none, some 7, some 1⟩ 9 []).1
      (Or.inr (Or.inr (Or.inl rfl))),
   (create_question_spec ⟨some "Q", some "A", some 7, some 1⟩ 9 []).2
      "Q" "A" 7 1 rfl (by decide) (by decide) (by decide) (by decide)⟩

/-- C6: deleting an id with no matching row answers NotFound; deleting an
existing id (ids being unique in the store) removes exactly that row, keeping
every other row, and answers with the confirmation message; re-deleting the
same id then answers NotFound. -/
theorem delete_question_spec (qid : Nat) (store : List Question)
    (hnd : (store.map fun q => q.id).Nodup) :
    ((∀ q ∈ store, q.id ≠ qid) →
      delete_question qid store = Except.error RError.notFound) ∧
    (∀ q ∈ store, q.id = qid →
      (∃ l₁ l₂, store = l₁ ++ q :: l₂ ∧
        delete_question qid store =
          Except.ok (l₁ ++ l₂, "Question successfully deleted")) ∧
      (∀ s msg, delete_question qid store = Except.ok (s, msg) →
        delete_question qid s = Except.error RError.notFound)) := by
  constructor
  · intro habs
    unfold delete_question
    rw [List.filter_eq_nil_iff.mpr fun q hq => by simp [habs q hq]]
  · intro q hq hqid
    obtain ⟨l₁, l₂, rfl⟩ := List.append_of_mem hq
    rw [List.map_append, List.map_cons] at hnd
    have hq2 : ∀ r ∈ l₂, r.id ≠ qid := by
      intro r hr hre
      have := (List.nodup_cons.mp (List.nodup_append.mp hnd).2.1).1
      rw [hqid] at this
      exact this (hre ▸ List.mem_map_of_mem _ hr)
    have hq1 : ∀ r ∈ l₁, r.id ≠ qid := by
      intro r hr hre
      have hd := (List.nodup_append.mp hnd).2.2
      exact hd (List.mem_map_of_mem _ hr)
        (by rw [hre, ← hqid]; exact List.mem_cons_self _ _)
    have hfilter_eq : ((l₁ ++ q :: l₂).filter fun r => r.id == qid) = [q] := by
      rw [List.filter_append, List.filter_cons, if_pos (beq_iff_eq.mpr hqid)]
      rw [List.filter_eq_nil_iff.mpr fun r hr => by simp [hq1 r hr],
        List.filter_eq_nil_iff.mpr fun r hr => by simp [hq2 r hr]]
      rfl
    have hremoved : ((l₁ ++ q :: l₂).filter fun r => !(r.id == qid)) = l₁ ++ l₂ := by
      rw [List.filter_append, List.filter_cons, if_neg (by simp [hqid])]
      rw [List.filter_eq_self.mpr fun r hr => by simp [hq1 r hr],
        List.filter_eq_self.mpr fun r hr => by simp [hq2 r hr]]
    have hdel : delete_question qid (l₁ ++ q :: l₂) =
        Except.ok (l₁ ++ l₂, "Question successfully deleted") := by
      unfold delete_question
      rw [hfilter_eq, hremoved]
    refine ⟨⟨l₁, l₂, rfl, hdel⟩, ?_⟩
    intro s msg hsm
    rw [hdel] at hsm
    injection Except.ok.inj hsm with h1 h2
    subst h1
    unfold delete_question
    rw [List.filter_eq_nil_iff.mpr fun r hr => by
      rcases List.mem_append.mp hr with h | h
      · simp [hq1 r h]
      · simp [hq2 r h]]

/-- C6 witness: deleting the unused id 9 from the two-question sample store
answers NotFound. -/
theorem delete_question_spec_witness :
    delete_question 9 sampleStore = Except.error RError.notFound :=
  (delete_question_spec 9 sampleStore (by decide)).1 (by decide)

/-- C8: the by-category listing is independent of the category table (no
existence check); NotFound exactly when the page slice over the questions of
that category is empty; on success the questions are the page slice of those
questions (so all carry the requested category), `current_category` echoes
the requested id, and `total_questions` counts the matches before
pagination. -/
theorem retrieve_questions_by_category_spec (page cid : Int)
    (store : List Question) (cats cats' : List Category) :
    retrieve_questions_by_category page cid store cats =
      retrieve_questions_by_category page cid store cats' ∧
    (retrieve_questions_by_category page cid store cats = Except.error RError.notFound ↔
      paginate_quetions page (store.filter fun q => q.category == cid) = []) ∧
    (∀ r, retrieve_questions_by_category page cid store cats = Except.ok r →
      r.questions = paginate_quetions page (store.filter fun q => q.category == cid) ∧
      (∀ q ∈ r.questions, q.category = cid) ∧
      r.current_category = cid ∧
      r.total_questions = (store.filter fun q => q.category == cid).length) := by
  refine ⟨rfl, ?_, ?_⟩
  · simp only [retrieve_questions_by_category, map_format]
    by_cases hemp : (paginate_quetions page (store.filter fun q => q.category == cid)).isEmpty
    · rw [if_pos hemp]
      exact iff_of_true rfl (List.isEmpty_iff.mp hemp)
    · rw [if_neg hemp]
      exact iff_of_false (fun hcon => Except.noConfusion hcon)
        (fun hnil => hemp (List.isEmpty_iff.mpr hnil))
  · intro r hr
    simp only [retrieve_questions_by_category, map_format] at hr
    by_cases hemp : (paginate_quetions page (store.filter fun q => q.category == cid)).isEmpty
    · rw [if_pos hemp] at hr
      exact absurd hr (by simp)
    · rw [if_neg hemp] at hr
      cases Except.ok.inj hr
      refine ⟨rfl, ?_, rfl, rfl⟩
      intro q hq
      exact beq_iff_eq.mp (List.mem_filter.mp (mem_of_mem_paginate hq)).2

/-- C8 witness: listing category 7 gives the same answer whatever the
category table holds, and is a success (not NotFound) on the sample store. -/
theorem retrieve_questions_by_category_spec_witness :
    retrieve_questions_by_category 1 7 sampleStore sampleCats =
      retrieve_questions_by_category 1 7 sampleStore [] ∧
    ¬ retrieve_questions_by_category 1 7 sampleStore sampleCats =
        Except.error RError.notFound := by
  refine ⟨(retrieve_questions_by_category_spec 1 7 sampleStore sampleCats []).1, ?_⟩
  rw [(retrieve_questions_by_category_spec 1 7 sampleStore sampleCats sampleCats).2.1]
  decide

/-- C9: the questions listing works on the store sorted by ascending id (a
permutation of the store, pairwise ordered); it answers NotFound exactly when
the page slice of that ordering is empty; on success the `questions` field is
the page slice, `total_questions` counts the whole store before pagination,
`current_category` is null and `categories` is the id-to-type mapping. -/
theorem get_questions_spec (page : Int) (store : List Question)
    (cats : List Category) :
    (orderById store).Perm store ∧
    (orderById store).Pairwise (fun a b => a.id ≤ b.id) ∧
    (get_questions page store cats = Except.error RError.notFound ↔
      paginate_quetions page (orderById store) = []) ∧
    (∀ r, get_questions page store cats = Except.ok r →
      r.questions = paginate_quetions page (orderById store) ∧
      r.total_questions = store.length ∧
      r.current_category = none ∧
      r.categories = cats.map fun c => (c.id, c.type)) := by
  have hperm : (orderById store).Perm store := List.mergeSort_perm store _
  have hsorted : (orderById store).Pairwise fun a b => a.id ≤ b.id := by
    have hs := @List.sorted_mergeSort Question
      (fun a b : Question => decide (a.id ≤ b.id))
      (fun a b c hab hbc => by
        simp only [decide_eq_true_eq] at hab hbc ⊢
        omega)
      (fun a b => by
        simp only [Bool.or_eq_true, decide_eq_true_eq]
        exact Nat.le_total _ _)
      store
    exact hs.imp fun h => of_decide_eq_true h
  refine ⟨hperm, hsorted, ?_, ?_⟩
  · simp only [get_questions, map_format]
    by_cases hemp : (paginate_quetions page (orderById store)).length = 0
    · rw [if_pos hemp]
      exact iff_of_true rfl (List.length_eq_zero.mp hemp)
    · rw [if_neg hemp]
      exact iff_of_false (fun hcon => Except.noConfusion hcon)
        (fun hnil => hemp (by rw [hnil]; rfl))
  · intro r hr
    simp only [get_questions, map_format] at hr
    by_cases hemp : (paginate_quetions page (orderById store)).length = 0
    · rw [if_pos hemp] at hr
      exact absurd hr (by simp)
    · rw [if_neg hemp] at hr
      cases Except.ok.inj hr
      exact ⟨rfl, hperm.length_eq, rfl, rfl⟩

/-- C9 witness: on the sample store page 2 is beyond the single page of
results, so the listing answers NotFound. -/
theorem get_questions_spec_witness :
    get_questions 2 sampleStore sampleCats = Except.error RError.notFound := by
  have horder : orderById sampleStore = sampleStore :=
    List.mergeSort_of_sorted (by
      refine List.Pairwise.cons ?_ (List.pairwise_singleton _ _)
      intro b hb
      rw [List.mem_singleton.mp hb]
      decide)
  refine (get_questions_spec 2 sampleStore sampleCats).2.2.1.mpr ?_
  rw [horder]
  rfl

theorem likeMatch_nil (cs : List Char) : likeMatch [] cs = cs.isEmpty :=
  likeMatch.eq_1 cs

theorem likeMatch_pct_nil (ps : List Char) :
    likeMatch ('%' :: ps) [] = likeMatch ps [] := by
  rw [likeMatch.eq_2, if_pos rfl, Bool.or_false]

theorem likeMatch_pct_cons (ps : List Char) (c : Char) (cs : List Char) :
    likeMatch ('%' :: ps) (c :: cs) =
      (likeMatch ps (c :: cs) || likeMatch ('%' :: ps) cs) := by
  rw [likeMatch.eq_3, if_pos rfl]

theorem likeMatch_lit_nil (p : Char) (ps : List Char)
    (h2 : ¬ p = '%') (h3 : ¬ p = '_') :
    likeMatch (p :: ps) [] = false := by
  rw [likeMatch.eq_2, if_neg h2, if_neg h3]

theorem likeMatch_lit_cons (p : Char) (ps : List Char) (c : Char) (cs : List Char)
    (h2 : ¬ p = '%') (h3 : ¬ p = '_') :
    likeMatch (p :: ps) (c :: cs) = (p == c && likeMatch ps cs) := by
  rw [likeMatch.eq_3, if_neg h2, if_neg h3]

theorem likeMatch_pct_end (cs : List Char) : likeMatch ['%'] cs = true := by
  induction cs with
  | nil =>
    rw [likeMatch_pct_nil, likeMatch_nil]
    rfl
  | cons c cs ih =>
    rw [likeMatch_pct_cons, ih, Bool.or_true]

theorem likeMatch_pct_iff (ps cs : List Char) :
    likeMatch ('%' :: ps) cs = true ↔
      ∃ s, s <:+ cs ∧ likeMatch ps s = true := by
  induction cs with
  | nil =>
    rw [likeMatch_pct_nil]
    constructor
    · intro h
      exact ⟨[], List.nil_suffix, h⟩
    · rintro ⟨s, hs, h⟩
      rw [List.suffix_nil] at hs
      subst hs
      exact h
  | cons c cs ih =>
    rw [likeMatch_pct_cons, Bool.or_eq_true, ih]
    constructor
    · rintro (h | ⟨s, hs, h⟩)
      · exact ⟨c :: cs, List.suffix_refl _, h⟩
      · exact ⟨s, hs.trans (List.suffix_cons c cs), h⟩
    · rintro ⟨s, hs, h⟩
      rcases List.suffix_cons_iff.mp hs with rfl | hs'
      · exact Or.inl h
      · exact Or.inr ⟨s, hs', h⟩

theorem likeMatch_lit_run :
    ∀ (t : List Char), (∀ c ∈ t, ¬ c = '%' ∧ ¬ c = '_') →
    ∀ (rest cs : List Char),
      (likeMatch (t ++ rest) cs = true ↔
        ∃ cs2, cs = t ++ cs2 ∧ likeMatch rest cs2 = true) := by
  intro t
  induction t with
  | nil =>
    intro _ rest cs
    constructor
    · intro h
      exact ⟨cs, rfl, h⟩
    · rintro ⟨cs2, rfl, h⟩
      exact h
  | cons a t ih =>
    intro ht rest cs
    obtain ⟨h2, h3⟩ := ht a (List.mem_cons_self a t)
    have ht' : ∀ c ∈ t, ¬ c = '%' ∧ ¬ c = '_' :=
      fun c hc => ht c (List.mem_cons_of_mem a hc)
    cases cs with
    | nil =>
      rw [List.cons_append, likeMatch_lit_nil a (t ++ rest) h2 h3]
      constructor
      · intro h
        exact absurd h (by simp)
      · rintro ⟨cs2, hcs, -⟩
        exact absurd hcs (by simp)
    | cons c cs' =>
      rw [List.cons_append, likeMatch_lit_cons a (t ++ rest) c cs' h2 h3,
        Bool.and_eq_true, beq_iff_eq, ih ht' rest cs']
      constructor
      · rintro ⟨rfl, cs2, rfl, h⟩
        exact ⟨cs2, rfl, h⟩
      · rintro ⟨cs2, hcs, h⟩
        rw [List.cons_append] at hcs
        injection hcs with hac hcs'
        exact ⟨hac.symm, cs2, hcs', h⟩

theorem likeMatch_pct_wrap_iff (t hay : List Char)
    (ht : ∀ c ∈ t, ¬ c = '%' ∧ ¬ c = '_') :
    likeMatch ('%' :: (t ++ ['%'])) hay = true ↔ t <:+: hay := by
  rw [likeMatch_pct_iff]
  constructor
  · rintro ⟨s, hs, h⟩
    rw [likeMatch_lit_run t ht ['%'] s] at h
    rcases h with ⟨cs2, rfl, -⟩
    rcases hs with ⟨pre, rfl⟩
    exact ⟨pre, cs2, by rw [List.append_assoc]⟩
  · rintro ⟨pre, post, rfl⟩
    refine ⟨t ++ post, ⟨pre, ?_⟩, ?_⟩
    · rw [List.append_assoc]
    · rw [likeMatch_lit_run t ht ['%'] (t ++ post)]
      exact ⟨post, rfl, likeMatch_pct_end post⟩

theorem toNat_charOfNat_lt (n : Nat) (h : n < 55296) :
    (Char.ofNat n).toNat = n := by
  rw [Char.ofNat, dif_pos (Or.inl h : n.isValidChar)]
  rfl

theorem toLower_eq_of_target {c d : Char} (hd : d.toNat < 97)
    (h : c.toLower = d) : c = d := by
  by_cases hc : c.toNat ≥ 65 ∧ c.toNat ≤ 90
  · exfalso
    simp only [Char.toLower] at h
    rw [if_pos hc] at h
    have hn : (Char.ofNat (c.toNat + 32)).toNat = c.toNat + 32 :=
      toNat_charOfNat_lt _ (by omega)
    rw [h] at hn
    omega
  · simp only [Char.toLower] at h
    rw [if_neg hc] at h
    exact h

theorem toLower_special_free {t : List Char}
    (ht : ∀ c ∈ t, ¬ c = '%' ∧ ¬ c = '_') :
    ∀ c ∈ t.map Char.toLower, ¬ c = '%' ∧ ¬ c = '_' := by
  intro c hc
  rcases List.mem_map.mp hc with ⟨c0, hc0, rfl⟩
  obtain ⟨h2, h3⟩ := ht c0 hc0
  exact ⟨fun h => h2 (toLower_eq_of_target (by decide) h),
         fun h => h3 (toLower_eq_of_target (by decide) h)⟩

/-- Case-insensitive substring relation, as the specification words it: the
lowered search term occurs contiguously inside the lowered question text. -/
def ciSubstring (t s : String) : Prop :=
  (t.toList.map Char.toLower) <:+: (s.toList.map Char.toLower)

instance instDecidableCiSubstring (t s : String) : Decidable (ciSubstring t s) :=
  List.decidableInfix _ _

theorem ilike_eq_ciSubstring (t hay : String)
    (ht : ∀ c ∈ t.toList, ¬ c = '%' ∧ ¬ c = '_') :
    (ilike hay ("%" ++ t ++ "%") = true) ↔ ciSubstring t hay := by
  have hpat : ("%" ++ t ++ "%").toList = '%' :: (t.toList ++ ['%']) := by
    show ("%" ++ t ++ "%").data = '%' :: (t.data ++ ['%'])
    rw [String.data_append, String.data_append, List.append_assoc]
    rfl
  simp only [ilike]
  rw [hpat, List.map_cons, List.map_append]
  rw [(by decide : Char.toLower '%' = '%'),
    (by decide : (['%'].map Char.toLower) = ['%'])]
  rw [likeMatch_pct_wrap_iff (t.toList.map Char.toLower)
    (hay.toList.map Char.toLower) (toLower_special_free ht)]
  exact Iff.rfl

/-- C7 (amended): for a search term containing none of the `LIKE` wildcard or
escape characters `%`, `_`, `\`, a question is in the match set exactly when
the term is a case-insensitive substring of its question text; the response's
`questions` are the pagination of the match set, `total_questions` counts all
matches before pagination, and an empty page slice yields NotFound.  (A term
containing `%` or `_` is spliced into the `LIKE` pattern and interpreted as a
wildcard instead — see the counterexample.) -/
theorem search_questions_spec (page : Int) (t : String) (store : List Question)
    (ht : ∀ c ∈ t.toList, ¬ c = '%' ∧ ¬ c = '_' ∧ ¬ c = '\\') :
    (store.filter fun q => ilike q.question ("%" ++ t ++ "%")) =
      (store.filter fun q => decide (ciSubstring t q.question)) ∧
    (search_questions page (some t) store = Except.error RError.notFound ↔
      paginate_quetions page
        (store.filter fun q => decide (ciSubstring t q.question)) = []) ∧
    (∀ r, search_questions page (some t) store = Except.ok r →
      r.questions = paginate_quetions page
        (store.filter fun q => decide (ciSubstring t q.question)) ∧
      r.total_questions =
        (store.filter fun q => decide (ciSubstring t q.question)).length ∧
      r.current_category = none) := by
  have ht2 : ∀ c ∈ t.toList, ¬ c = '%' ∧ ¬ c = '_' :=
    fun c hc => ⟨(ht c hc).1, (ht c hc).2.1⟩
  have hM : (store.filter fun q => ilike q.question ("%" ++ t ++ "%")) =
      (store.filter fun q => decide (ciSubstring t q.question)) := by
    apply List.filter_congr
    intro q _
    rw [Bool.eq_iff_iff, decide_eq_true_iff]
    exact ilike_eq_ciSubstring t q.question ht2
  refine ⟨hM, ?_, ?_⟩
  · simp only [search_questions, map_format]
    rw [hM]
    by_cases hemp : (paginate_quetions page
        (store.filter fun q => decide (ciSubstring t q.question))).isEmpty
    · rw [if_pos hemp]
      exact iff_of_true rfl (List.isEmpty_iff.mp hemp)
    · rw [if_neg hemp]
      exact iff_of_false (fun hcon => Except.noConfusion hcon)
        (fun hnil => hemp (List.isEmpty_iff.mpr hnil))
  · intro r hr
    simp only [search_questions, map_format] at hr
    rw [hM] at hr
    by_cases hemp : (paginate_quetions page
        (store.filter fun q => decide (ciSubstring t q.question))).isEmpty
    · rw [if_pos hemp] at hr
      exact absurd hr (by simp)
    · rw [if_neg hemp] at hr
      cases Except.ok.inj hr
      exact ⟨rfl, rfl, rfl⟩

/-- C7 witness: for the wildcard-free term `"four"` the handler's match set
on the sample store coincides with the case-insensitive-substring match
set. -/
theorem search_questions_spec_witness :
    (sampleStore.filter fun q => ilike q.question ("%" ++ "four" ++ "%")) =
      (sampleStore.filter fun q => decide (ciSubstring "four" q.question)) :=
  (search_questions_spec 1 "four" sampleStore (by decide)).1

/-- C7 counterexample: the term `"%"` is not a substring of `"What is four by
four?"`, yet the handler matches that question (the term acts as a `LIKE`
wildcard) and answers success instead of the NotFound the claim requires. -/
theorem search_questions_cex :
    ¬ ciSubstring "%" sampleMath.question ∧
    search_questions 1 (some "%") [sampleMath] =
      Except.ok { questions := [sampleMath], total_questions := 1,
                  current_category := none } := by
  have hall : ∀ hay : List Char, likeMatch ['%', '%', '%'] hay = true := fun hay =>
    (likeMatch_pct_iff ['%', '%'] hay).mpr
      ⟨[], List.nil_suffix,
        (likeMatch_pct_iff ['%'] []).mpr
          ⟨[], List.nil_suffix, likeMatch_pct_end []⟩⟩
  have hq : ilike sampleMath.question ("%" ++ "%" ++ "%") = true := by
    simp only [ilike]
    rw [(by decide : (("%" ++ "%" ++ "%").toList.map Char.toLower) = ['%', '%', '%'])]
    exact hall _
  have hfil : ([sampleMath].filter fun q => ilike q.question ("%" ++ "%" ++ "%")) =
      [sampleMath] := by
    rw [List.filter_cons, if_pos hq]
    rfl
  constructor
  · decide
  · simp only [search_questions]
    rw [hfil]
    rfl

/-- C10 witness: a missing search term on the sample store yields the 500
outcome. -/
theorem search_questions_none_witness :
    search_questions 1 none sampleStore = Except.error RError.internalError :=
  (search_questions_none 1 sampleStore).1
